import Mathlib

/-!
Shallow embedding of the Cinema Seat Simulator (`Cinema2.py`).

The embedding covers the non-drawing core of the program: the `Seat` and
`CinemaHall` data model, grid layout, hit-testing, toggle/reset state
transitions, and the JSON persistence layer (`load_state` / `save_state`).

Modelling conventions:
* Python floats are modelled as exact rationals (`ℚ`); the hit test
  `math.hypot(px - x, py - y) <= r` is modelled as the equivalent exact
  condition `0 ≤ r ∧ (px - x)² + (py - y)² ≤ r²`.
* JSON values are modelled by the inductive `Json`; numbers are integers
  (the program only ever writes integers and booleans).
* A Python dict is a `List (String × Json)` together with last-binding-wins
  lookup (`jsonGet`), matching both `json.load`'s duplicate-key behaviour
  and dict-comprehension overwriting.
* Python truthiness (`bool(v)`, `if d:`) is `pyTruthy` / `List.isEmpty`.
* Python `==` between a JSON value and an `int` key component is `pyEqInt`
  (`True == 1`, `False == 0`, numbers compare by value).
* The single persisted file `seats.json` is modelled by `FileState`:
  `absent` (no file), `unreadable` (open/`json.load` raises, which
  `load_state` catches), or `content j` (the parsed JSON value).
* Exceptions escaping a function are `Except.error`; normal return is
  `Except.ok`.
-/

/-- A JSON value as produced by `json.load` (numbers restricted to integers). -/
inductive Json where
  | null : Json
  | bool : Bool → Json
  | num : Int → Json
  | str : String → Json
  | arr : List Json → Json
  | obj : List (String × Json) → Json

/-- Python truthiness `bool(v)` of a JSON value. -/
def pyTruthy : Json → Bool
  | Json.null => false
  | Json.bool b => b
  | Json.num n => n != 0
  | Json.str s => s != ""
  | Json.arr xs => !xs.isEmpty
  | Json.obj fs => !fs.isEmpty

/-- Last-binding-wins search: the image under `g` of the last element of the
list satisfying `p`, as computed by a left fold that overwrites its
accumulator (the shape of Python dict construction). -/
def lastWith (p : α → Bool) (g : α → β) (l : List α) : Option β :=
  l.foldl (fun acc a => if p a then some (g a) else acc) none

/-- Python dict lookup `fs[k]` / `fs.get(k)` on a field list (last binding wins). -/
def jsonGet (fs : List (String × Json)) (k : String) : Option Json :=
  lastWith (fun f => f.1 == k) (fun f => f.2) fs

/-- Python `==` between a JSON value and an `int` (`True == 1`, `False == 0`,
numbers by value; strings, lists, objects and `None` never equal an int). -/
def pyEqInt : Json → Int → Bool
  | Json.num n, i => n == i
  | Json.bool b, i => (if b then (1 : Int) else 0) == i
  | _, _ => false

/-- Python iteration `for d in v`: lists yield elements, strings yield
one-character strings, dicts yield their keys; other values raise
`TypeError`. -/
def pyIter : Json → Except String (List Json)
  | Json.arr xs => Except.ok xs
  | Json.str s => Except.ok (s.toList.map fun ch => Json.str (String.mk [ch]))
  | Json.obj fs => Except.ok (fs.map fun f => Json.str f.1)
  | _ => Except.error "TypeError: object is not iterable"

/-- One step of the dict comprehension
`{(d["row"], d["col"]): d for d in ...}`: evaluates `d["row"]` and
`d["col"]` (raising `TypeError` on a non-dict entry and `KeyError` on a
missing field) and returns the key pair together with the entry's fields. -/
def entryKey (d : Json) : Except String ((Json × Json) × List (String × Json)) :=
  match d with
  | Json.obj fs =>
    match jsonGet fs "row" with
    | none => Except.error "KeyError: row"
    | some r =>
      match jsonGet fs "col" with
      | none => Except.error "KeyError: col"
      | some c => Except.ok ((r, c), fs)
  | _ => Except.error "TypeError: entry is not subscriptable"

/-- `state.get((row, col))` on the comprehension-built dict: the entry fields
recorded under the last key Python-equal to `(r, c)`. -/
def dictGet (st : List ((Json × Json) × List (String × Json))) (r c : Int) :
    Option (List (String × Json)) :=
  lastWith (fun e => pyEqInt e.1.1 r && pyEqInt e.1.2 c) (fun e => e.2) st

/-- The dict comprehension `{(d["row"], d["col"]): d for d in ...}` run over
the entry list in order; the first exception raised by a key expression
propagates. -/
def buildState : List Json → Except String (List ((Json × Json) × List (String × Json)))
  | [] => Except.ok []
  | d :: ds =>
    match entryKey d with
    | Except.error e => Except.error e
    | Except.ok entry =>
      match buildState ds with
      | Except.error e => Except.error e
      | Except.ok st => Except.ok (entry :: st)

/-- `Seat`: identity `(row, col)`, centre `(x, y)`, radius `r`, `booked` flag. -/
structure Seat where
  row : Int
  col : Int
  x : ℚ
  y : ℚ
  r : ℚ
  booked : Bool
deriving DecidableEq

/-- `Seat.contains`: point-in-circle hit test
`math.hypot(px - x, py - y) <= r`, in exact arithmetic. -/
def Seat.contains (s : Seat) (px py : ℚ) : Bool :=
  decide (0 ≤ s.r ∧ (px - s.x) ^ 2 + (py - s.y) ^ 2 ≤ s.r ^ 2)

/-- `Seat.to_dict`: `{"row": row, "col": col, "booked": booked}`. -/
def Seat.to_dict (s : Seat) : Json :=
  Json.obj [("row", Json.num s.row), ("col", Json.num s.col), ("booked", Json.bool s.booked)]

/-- `Seat.from_dict`: `self.booked = bool(data.get("booked", False))`. -/
def Seat.from_dict (s : Seat) (data : List (String × Json)) : Seat :=
  { s with booked := pyTruthy ((jsonGet data "booked").getD (Json.bool false)) }

/-- `WINDOW_H` from the config block. -/
def WINDOW_H : ℚ := 700

/-- `TOP_MARGIN` from the config block. -/
def TOP_MARGIN : ℚ := 150

/-- `BOTTOM_MARGIN` from the config block. -/
def BOTTOM_MARGIN : ℚ := 80

/-- `CinemaHall`: configuration plus the ordered seat list. -/
structure CinemaHall where
  rows : Nat
  cols : Nat
  radius : ℚ
  gap_x : ℚ
  gap_y : ℚ
  seats : List Seat
deriving DecidableEq

/-- `CinemaHall._grid_origin`: bottom-left anchor of the grid area. -/
def CinemaHall.grid_origin (h : CinemaHall) : ℚ × ℚ :=
  let grid_w : ℚ := (h.cols : ℚ) * (2 * h.radius) + ((h.cols : ℚ) - 1) * h.gap_x
  let grid_h : ℚ := (h.rows : ℚ) * (2 * h.radius) + ((h.rows : ℚ) - 1) * h.gap_y
  let x0 : ℚ := -grid_w / 2
  let y0 : ℚ := -WINDOW_H / 2 + BOTTOM_MARGIN + h.radius
  let y1 : ℚ := y0 + (WINDOW_H - TOP_MARGIN - BOTTOM_MARGIN - grid_h) / 2
  (x0, y1)

/-- `CinemaHall._build_grid`: clear the seat list and repopulate it
row-major with computed positions. -/
def CinemaHall.build_grid (h : CinemaHall) : CinemaHall :=
  let o := h.grid_origin
  { h with seats :=
      (List.range h.rows).flatMap fun (r : Nat) =>
        (List.range h.cols).map fun (c : Nat) =>
          { row := (r : Int), col := (c : Int),
            x := o.1 + (c : ℚ) * (2 * h.radius + h.gap_x) + h.radius,
            y := o.2 + (r : ℚ) * (2 * h.radius + h.gap_y) + h.radius,
            r := h.radius, booked := false } }

/-- State of the persisted `seats.json` file. -/
inductive FileState where
  | absent : FileState
  | unreadable : FileState
  | content : Json → FileState

/-- The per-seat reconciliation step of `load_state`:
`d = state.get((seat.row, seat.col)); if d: seat.from_dict(d)` (an absent or
falsy — i.e. empty — dict leaves the seat untouched). -/
def applyEntry (st : List ((Json × Json) × List (String × Json))) (seat : Seat) : Seat :=
  match dictGet st seat.row seat.col with
  | some d => if d.isEmpty then seat else seat.from_dict d
  | none => seat

/-- `CinemaHall.load_state`: return immediately on a missing file; catch any
exception from open/`json.load` and return; then (outside the `try`) build
`state = {(d["row"], d["col"]): d for d in data.get("seats", [])}` — any
exception raised here propagates — and apply matching entries to seats. -/
def CinemaHall.load_state (h : CinemaHall) (file : FileState) : Except String CinemaHall :=
  match file with
  | FileState.absent => Except.ok h
  | FileState.unreadable => Except.ok h
  | FileState.content data =>
    match data with
    | Json.obj top =>
      match pyIter ((jsonGet top "seats").getD (Json.arr [])) with
      | Except.error e => Except.error e
      | Except.ok ds =>
        match buildState ds with
        | Except.error e => Except.error e
        | Except.ok st => Except.ok { h with seats := h.seats.map (applyEntry st) }
    | _ => Except.error "AttributeError: object has no attribute get"

/-- `CinemaHall.save_state`: the snapshot `{"seats": [s.to_dict() for s in seats]}`
written to the file. -/
def CinemaHall.save_state (h : CinemaHall) : Json :=
  Json.obj [("seats", Json.arr (h.seats.map Seat.to_dict))]

/-- The loop body of `toggle_at` over an already-reversed seat list: flip the
first seat containing the point and stop (`break`). -/
def toggleScan (px py : ℚ) : List Seat → List Seat × Bool
  | [] => ([], false)
  | s :: rest =>
    if s.contains px py then ({ s with booked := !s.booked } :: rest, true)
    else
      let r := toggleScan px py rest
      (s :: r.1, r.2)

/-- `CinemaHall.toggle_at` (in-memory effect): iterate over `reversed(seats)`,
flip the first containing seat, return the changed flag. -/
def CinemaHall.toggle_at (h : CinemaHall) (px py : ℚ) : CinemaHall × Bool :=
  let r := toggleScan px py h.seats.reverse
  ({ h with seats := r.1.reverse }, r.2)

/-- `CinemaHall.reset_all` (in-memory effect): set every seat's `booked` to
`False`. -/
def CinemaHall.reset_all (h : CinemaHall) : CinemaHall :=
  { h with seats := h.seats.map fun s => { s with booked := false } }

/-- A freshly built hall: the configuration fields as stored by `__init__`
followed by `_build_grid()`, before any load. -/
def buildHall (rows cols : Nat) (radius gx gy : ℚ) : CinemaHall :=
  CinemaHall.build_grid
    { rows := rows, cols := cols, radius := radius, gap_x := gx, gap_y := gy,
      seats := [] }

/-- `CinemaHall.__init__`: store the configuration, `_build_grid()`, then
`load_state()`. -/
def CinemaHall.init (rows cols : Nat) (radius gx gy : ℚ) (file : FileState) :
    Except String CinemaHall :=
  (buildHall rows cols radius gx gy).load_state file

/-- In-memory hall together with the persisted file. -/
structure Sys where
  hall : CinemaHall
  file : FileState

/-- `toggle_at` including its persistence side effect: `if changed:
self.save_state()` (the subsequent `draw_all` does not touch seat or file
state). -/
def Sys.toggle_at (sys : Sys) (px py : ℚ) : Sys × Bool :=
  let r := sys.hall.toggle_at px py
  if r.2 then ({ hall := r.1, file := FileState.content r.1.save_state }, true)
  else ({ sys with hall := r.1 }, false)

/-- `reset_all` including its persistence side effect: unconditional
`save_state()`. -/
def Sys.reset_all (sys : Sys) : Sys :=
  let h := sys.hall.reset_all
  { hall := h, file := FileState.content h.save_state }

/-- Seat identity `(row, col)`. -/
def Seat.ident (s : Seat) : Int × Int :=
  (s.row, s.col)

/-- Everything about a seat except its `booked` flag. -/
def Seat.geom (s : Seat) : Int × Int × ℚ × ℚ × ℚ :=
  (s.row, s.col, s.x, s.y, s.r)

/-- Replace a seat's `booked` flag. -/
def setBooked (s : Seat) (b : Bool) : Seat :=
  { s with booked := b }

/-- The comprehension entry produced by a serialized seat: key
`(row, col)` and the seat's persisted dict. -/
def seatEntry (s : Seat) : (Json × Json) × List (String × Json) :=
  ((Json.num s.row, Json.num s.col),
   [("row", Json.num s.row), ("col", Json.num s.col), ("booked", Json.bool s.booked)])

/-- A canonical snapshot entry `{"row": r, "col": c, "booked": b}`. -/
def mkEntry (t : Int × Int × Bool) : Json :=
  Json.obj [("row", Json.num t.1), ("col", Json.num t.2.1), ("booked", Json.bool t.2.2)]

/-- A canonical snapshot `{"seats": [...]}` over canonical entries. -/
def mkSnapshot (ts : List (Int × Int × Bool)) : Json :=
  Json.obj [("seats", Json.arr (ts.map mkEntry))]

/-- A concrete 1×1 hall used to instantiate the general theorems. -/
def hallA : CinemaHall :=
  buildHall 1 1 16 18 24

/-- The single seat of `hallA` (centre `(0, -19)`, radius 16). -/
def seatA : Seat :=
  { row := 0, col := 0, x := 0, y := -19, r := 16, booked := false }

/-- The seat-identity invariant of §3: exactly `rows × cols` seats, with
pairwise-distinct `(row, col)` and every in-range pair occurring exactly
once. -/
def seatIdsOk (rows cols : Nat) (l : List Seat) : Prop :=
  l.length = rows * cols ∧
  (l.map Seat.ident).Nodup ∧
  ∀ r c : Nat, r < rows → c < cols →
    @List.count (Int × Int) instBEqOfDecidableEq (Int.ofNat r, Int.ofNat c)
      (l.map Seat.ident) = 1

/-! ### Basic facts about seats and the toggle scan -/

theorem Seat.geom_setBooked (s : Seat) (b : Bool) : Seat.geom { s with booked := b } = s.geom :=
  rfl

theorem Seat.geom_from_dict (s : Seat) (d : List (String × Json)) :
    (s.from_dict d).geom = s.geom :=
  rfl

theorem Seat.contains_setBooked (s : Seat) (b : Bool) (px py : ℚ) :
    Seat.contains { s with booked := b } px py = s.contains px py :=
  rfl

theorem toggleScan_of_none {px py : ℚ} {l : List Seat}
    (hl : ∀ s ∈ l, s.contains px py = false) : toggleScan px py l = (l, false) := by
  induction l with
  | nil => rfl
  | cons s t ih =>
    have hs := hl s (List.mem_cons_self s t)
    have ht := ih fun x hx => hl x (List.mem_cons_of_mem s hx)
    simp [toggleScan, hs, ht]

theorem toggleScan_first {px py : ℚ} {a : List Seat} {s : Seat} {b : List Seat}
    (ha : ∀ x ∈ a, x.contains px py = false) (hs : s.contains px py = true) :
    toggleScan px py (a ++ s :: b) = (a ++ { s with booked := !s.booked } :: b, true) := by
  induction a with
  | nil => simp [toggleScan, hs]
  | cons x t ih =>
    have hx := ha x (List.mem_cons_self x t)
    have ht := ih fun y hy => ha y (List.mem_cons_of_mem x hy)
    simp [toggleScan, hx, ht]

theorem toggleScan_geom (px py : ℚ) (l : List Seat) :
    ((toggleScan px py l).1).map Seat.geom = l.map Seat.geom := by
  induction l with
  | nil => rfl
  | cons s t ih =>
    by_cases h : s.contains px py
    · simp [toggleScan, h, Seat.geom_setBooked]
    · simp [toggleScan, h, ih]

/-- Splitting off the first element of a list satisfying a Boolean predicate. -/
theorem exists_first_split {p : α → Bool} {l : List α} (hl : ∃ x ∈ l, p x = true) :
    ∃ a x b, l = a ++ x :: b ∧ (∀ y ∈ a, p y = false) ∧ p x = true := by
  induction l with
  | nil => simp at hl
  | cons c t ih =>
    by_cases hc : p c = true
    · exact ⟨[], c, t, rfl, by simp, hc⟩
    · obtain ⟨x, hx, hpx⟩ := hl
      rcases List.mem_cons.mp hx with rfl | hx
      · exact absurd hpx hc
      · obtain ⟨a, y, b, rfl, ha, hpy⟩ := ih ⟨x, hx, hpx⟩
        refine ⟨c :: a, y, b, rfl, ?_, hpy⟩
        intro z hz
        rcases List.mem_cons.mp hz with rfl | hz
        · exact Bool.not_eq_true _ ▸ (by simpa using hc)
        · exact ha z hz

/-! ### Last-binding-wins lookup lemmas -/

theorem lastWith_accum (p : α → Bool) (g : α → β) (l : List α) (acc : Option β) :
    l.foldl (fun acc a => if p a then some (g a) else acc) acc =
      (lastWith p g l).elim acc some := by
  induction l generalizing acc with
  | nil => rfl
  | cons x t ih =>
    by_cases hp : p x = true
    · simp only [lastWith, List.foldl_cons, if_pos hp]
      rw [ih (some (g x))]
      cases lastWith p g t <;> simp
    · simp only [lastWith, List.foldl_cons, if_neg hp]
      exact ih acc

theorem lastWith_cons (p : α → Bool) (g : α → β) (x : α) (t : List α) :
    lastWith p g (x :: t) =
      (lastWith p g t).elim (if p x then some (g x) else none) some := by
  simp only [lastWith, List.foldl_cons]
  exact lastWith_accum p g t _

theorem lastWith_eq_none_iff {p : α → Bool} {g : α → β} {l : List α} :
    lastWith p g l = none ↔ ∀ x ∈ l, p x = false := by
  induction l with
  | nil => simp [lastWith]
  | cons x t ih =>
    rw [lastWith_cons, List.forall_mem_cons]
    cases h : lastWith p g t with
    | none =>
      have ht : ∀ x ∈ t, p x = false := ih.mp h
      by_cases hp : p x = true
      · simp [hp]
      · simp only [Bool.not_eq_true] at hp
        simpa [hp] using ht
    | some b =>
      simp only [Option.elim_some]
      constructor
      · intro hb; cases hb
      · intro hall
        have hn : lastWith p g t = none := ih.mpr fun y hy => hall.2 y hy
        rw [h] at hn; cases hn

theorem exists_of_lastWith_eq_some {p : α → Bool} {g : α → β} {l : List α} :
    ∀ {b : β}, lastWith p g l = some b → ∃ x ∈ l, p x = true ∧ g x = b := by
  induction l with
  | nil => intro b h; simp [lastWith] at h
  | cons x t ih =>
    intro b h
    rw [lastWith_cons] at h
    cases ht : lastWith p g t with
    | some c =>
      rw [ht] at h
      simp only [Option.elim_some, Option.some.injEq] at h
      obtain ⟨y, hy, hpy, hgy⟩ := ih ht
      exact ⟨y, List.mem_cons_of_mem x hy, hpy, h ▸ hgy⟩
    | none =>
      rw [ht] at h
      simp only [Option.elim_none] at h
      by_cases hp : p x = true
      · rw [if_pos hp] at h
        exact ⟨x, List.mem_cons_self x t, hp, Option.some.inj h⟩
      · rw [if_neg hp] at h; cases h

theorem lastWith_unique {p : α → Bool} {g : α → β} {l : List α} {a : α}
    (hmem : a ∈ l) (hpa : p a = true) (huniq : ∀ x ∈ l, p x = true → x = a) :
    lastWith p g l = some (g a) := by
  cases h : lastWith p g l with
  | none =>
    have := lastWith_eq_none_iff.mp h a hmem
    rw [hpa] at this; cases this
  | some b =>
    obtain ⟨x, hx, hpx, hgx⟩ := exists_of_lastWith_eq_some h
    rw [← hgx, huniq x hx hpx]

theorem lastWith_perm {p : α → Bool} {g : α → β} {l l' : List α} (hperm : l.Perm l')
    (huniq : ∀ x ∈ l, ∀ y ∈ l, p x = true → p y = true → x = y) :
    lastWith p g l = lastWith p g l' := by
  cases h : lastWith p g l with
  | none =>
    have hn := lastWith_eq_none_iff.mp h
    exact (lastWith_eq_none_iff.mpr fun x hx => hn x (hperm.mem_iff.mpr hx)).symm
  | some b =>
    obtain ⟨x, hx, hpx, hgx⟩ := exists_of_lastWith_eq_some h
    rw [← hgx]
    exact (lastWith_unique (hperm.subset hx) hpx fun y hy hpy =>
      huniq y (hperm.symm.subset hy) x hx hpy hpx).symm

/-! ### Unfolding equations for `load_state` -/

theorem load_state_absent (h : CinemaHall) :
    h.load_state FileState.absent = Except.ok h :=
  rfl

theorem load_state_unreadable (h : CinemaHall) :
    h.load_state FileState.unreadable = Except.ok h :=
  rfl

theorem load_state_content_obj (h : CinemaHall) (top : List (String × Json)) :
    h.load_state (FileState.content (Json.obj top)) =
      match pyIter ((jsonGet top "seats").getD (Json.arr [])) with
      | Except.error e => Except.error e
      | Except.ok ds =>
        match buildState ds with
        | Except.error e => Except.error e
        | Except.ok st => Except.ok { h with seats := h.seats.map (applyEntry st) } :=
  rfl

theorem load_state_content_null (h : CinemaHall) :
    h.load_state (FileState.content Json.null) =
      Except.error "AttributeError: object has no attribute get" :=
  rfl

theorem load_state_content_bool (h : CinemaHall) (b : Bool) :
    h.load_state (FileState.content (Json.bool b)) =
      Except.error "AttributeError: object has no attribute get" :=
  rfl

theorem load_state_content_num (h : CinemaHall) (n : Int) :
    h.load_state (FileState.content (Json.num n)) =
      Except.error "AttributeError: object has no attribute get" :=
  rfl

theorem load_state_content_str (h : CinemaHall) (s : String) :
    h.load_state (FileState.content (Json.str s)) =
      Except.error "AttributeError: object has no attribute get" :=
  rfl

theorem load_state_content_arr (h : CinemaHall) (xs : List Json) :
    h.load_state (FileState.content (Json.arr xs)) =
      Except.error "AttributeError: object has no attribute get" :=
  rfl

/-! ### Shape of a successful load -/

theorem applyEntry_geom (st : List ((Json × Json) × List (String × Json))) (s : Seat) :
    (applyEntry st s).geom = s.geom := by
  unfold applyEntry
  cases dictGet st s.row s.col with
  | none => rfl
  | some d =>
    by_cases hd : d.isEmpty <;> simp [hd, Seat.geom_from_dict]

theorem load_state_ok_cases {h : CinemaHall} {f : FileState} {h' : CinemaHall}
    (hl : h.load_state f = Except.ok h') :
    h' = h ∨ ∃ st, h' = { h with seats := h.seats.map (applyEntry st) } := by
  cases f with
  | absent => exact Or.inl (Except.ok.inj hl).symm
  | unreadable => exact Or.inl (Except.ok.inj hl).symm
  | content data =>
    cases data with
    | obj top =>
      rw [load_state_content_obj] at hl
      cases hit : pyIter ((jsonGet top "seats").getD (Json.arr [])) with
      | error e => simp only [hit] at hl; exact Except.noConfusion hl
      | ok ds =>
        simp only [hit] at hl
        cases hst : buildState ds with
        | error e => simp only [hst] at hl; exact Except.noConfusion hl
        | ok st =>
          simp only [hst, Except.ok.injEq] at hl
          exact Or.inr ⟨st, hl.symm⟩
    | null => rw [load_state_content_null] at hl; cases hl
    | bool b => rw [load_state_content_bool] at hl; cases hl
    | num n => rw [load_state_content_num] at hl; cases hl
    | str s => rw [load_state_content_str] at hl; cases hl
    | arr xs => rw [load_state_content_arr] at hl; cases hl

/-! ### Structure of the built grid -/

theorem buildHall_map_ident (rows cols : Nat) (radius gx gy : ℚ) :
    (buildHall rows cols radius gx gy).seats.map Seat.ident =
      (List.range rows).flatMap fun r =>
        (List.range cols).map fun c => (Int.ofNat r, Int.ofNat c) := by
  simp only [buildHall, CinemaHall.build_grid, List.map_flatMap, List.map_map]
  rfl

theorem buildHall_ident_nodup (rows cols : Nat) (radius gx gy : ℚ) :
    ((buildHall rows cols radius gx gy).seats.map Seat.ident).Nodup := by
  rw [buildHall_map_ident]
  refine List.nodup_flatMap.mpr ⟨fun r _ => ?_, ?_⟩
  · refine List.Nodup.map ?_ (List.nodup_range cols)
    intro c1 c2 hcc
    simpa using hcc
  · refine List.Pairwise.imp ?_ (List.pairwise_lt_range rows)
    intro r1 r2 hlt q hq1 hq2
    simp only [List.mem_map, List.mem_range] at hq1 hq2
    obtain ⟨c1, _, rfl⟩ := hq1
    obtain ⟨c2, _, hq⟩ := hq2
    have : r2 = r1 := by simpa using congrArg Prod.fst hq
    omega

theorem buildHall_length (rows cols : Nat) (radius gx gy : ℚ) :
    (buildHall rows cols radius gx gy).seats.length = rows * cols := by
  have h := congrArg List.length (buildHall_map_ident rows cols radius gx gy)
  rw [List.length_map] at h
  rw [h, List.length_flatMap]
  simp [Function.comp_def, List.map_const', List.sum_replicate, smul_eq_mul]

theorem buildHall_mem_ident (rows cols : Nat) (radius gx gy : ℚ) {r c : Nat}
    (hr : r < rows) (hc : c < cols) :
    ((r : Int), (c : Int)) ∈ (buildHall rows cols radius gx gy).seats.map Seat.ident := by
  rw [buildHall_map_ident]
  simp only [List.mem_flatMap, List.mem_map, List.mem_range]
  exact ⟨r, hr, c, hc, rfl⟩

/-! ### Serialization helpers -/

theorem entryKey_to_dict (s : Seat) : entryKey s.to_dict = Except.ok (seatEntry s) :=
  rfl

theorem buildState_to_dict (l : List Seat) :
    buildState (l.map Seat.to_dict) = Except.ok (l.map seatEntry) := by
  induction l with
  | nil => rfl
  | cons s t ih => simp [buildState, entryKey_to_dict, ih]

theorem lastWith_map {p : β → Bool} {g : β → γ} {f : α → β} {l : List α} :
    lastWith p g (l.map f) = lastWith (fun a => p (f a)) (fun a => g (f a)) l := by
  simp only [lastWith, List.foldl_map]

theorem pyEqInt_num (n i : Int) : pyEqInt (Json.num n) i = (n == i) :=
  rfl

theorem map_ident_zipWith_setBooked {l : List Seat} {bs : List Bool}
    (hlen : l.length = bs.length) :
    (List.zipWith setBooked l bs).map Seat.ident = l.map Seat.ident := by
  induction l generalizing bs with
  | nil => simp
  | cons s t ih =>
    cases bs with
    | nil => cases hlen
    | cons b tb =>
      simp only [List.zipWith_cons_cons, List.map_cons]
      have : Seat.ident (setBooked s b) = Seat.ident s := rfl
      rw [this, ih (by simpa using hlen)]

/-! ### Geometry preservation helpers -/

theorem toggle_at_map_geom (h : CinemaHall) (px py : ℚ) :
    (h.toggle_at px py).1.seats.map Seat.geom = h.seats.map Seat.geom := by
  unfold CinemaHall.toggle_at
  simp only [List.map_reverse, toggleScan_geom]
  rw [List.reverse_reverse]

theorem reset_all_map_geom (h : CinemaHall) :
    h.reset_all.seats.map Seat.geom = h.seats.map Seat.geom := by
  unfold CinemaHall.reset_all
  rw [List.map_map]
  rfl

theorem load_state_map_geom {h : CinemaHall} {f : FileState} {h' : CinemaHall}
    (hl : h.load_state f = Except.ok h') :
    h'.seats.map Seat.geom = h.seats.map Seat.geom := by
  rcases load_state_ok_cases hl with rfl | ⟨st, rfl⟩
  · rfl
  · rw [List.map_map]
    refine List.map_congr_left fun s _ => ?_
    exact applyEntry_geom st s

theorem sys_toggle_at_hall (sys : Sys) (px py : ℚ) :
    (sys.toggle_at px py).1.hall = (sys.hall.toggle_at px py).1 := by
  unfold Sys.toggle_at
  by_cases hch : (sys.hall.toggle_at px py).2 = true <;> simp [hch]

theorem sys_reset_all_hall (sys : Sys) : sys.reset_all.hall = sys.hall.reset_all :=
  rfl

theorem map_ident_of_map_geom {l l' : List Seat}
    (hg : l.map Seat.geom = l'.map Seat.geom) :
    l.map Seat.ident = l'.map Seat.ident := by
  have key : ∀ m : List Seat,
      m.map Seat.ident = (m.map Seat.geom).map fun g => (g.1, g.2.1) := by
    intro m
    rw [List.map_map]
    rfl
  rw [key, key, hg]

/-! ### Concrete evaluation lemmas for the 1×1 hall -/

theorem hallA_seats : hallA.seats = [seatA] := by
  have h1 : List.range 1 = [0] := rfl
  simp only [hallA, buildHall, CinemaHall.build_grid, CinemaHall.grid_origin,
    WINDOW_H, TOP_MARGIN, BOTTOM_MARGIN, h1, List.flatMap_cons,
    List.flatMap_nil, List.map_cons, List.map_nil, List.append_nil, seatA,
    List.cons.injEq, and_true, Seat.mk.injEq]
  norm_num

theorem seatA_contains_center : seatA.contains 0 (-19) = true := by
  simp only [seatA, Seat.contains, decide_eq_true_eq]
  norm_num

theorem seatA_not_contains_far : seatA.contains 100 100 = false := by
  simp only [seatA, Seat.contains, decide_eq_false_iff_not]
  norm_num

theorem hallA_toggle_hit :
    hallA.toggle_at 0 (-19) =
      ({ hallA with seats := [{ seatA with booked := true }] }, true) := by
  unfold CinemaHall.toggle_at
  rw [hallA_seats]
  simp only [List.reverse_cons, List.reverse_nil, List.nil_append, toggleScan,
    seatA_contains_center, if_true]
  rfl

theorem hallA_toggle_miss : hallA.toggle_at 100 100 = (hallA, false) := by
  unfold CinemaHall.toggle_at
  rw [hallA_seats]
  simp only [List.reverse_cons, List.reverse_nil, List.nil_append, toggleScan,
    seatA_not_contains_far, Bool.false_eq_true, if_false]
  rw [← hallA_seats]

/-! ### C1 -/

/-- C1 counterexample: the persisted file holding the parseable JSON text
`[]` (wrong shape: non-object top level) makes `load_state` raise an
`AttributeError` (from `data.get`) instead of returning normally. -/
theorem load_wrong_shape_raises :
    (buildHall 1 1 16 18 24).load_state (FileState.content (Json.arr [])) =
      Except.error "AttributeError: object has no attribute get" :=
  rfl

/-- C1 amended: `load_state` tolerates an absent file and an unreadable or
non-parseable file — construction then succeeds with every seat left at its
default `booked = false` — but parseable JSON of the wrong shape is outside
the `try`/`except` and raises. -/
theorem load_tolerant_amended (rows cols : Nat) (radius gx gy : ℚ)
    (f : FileState) (hf : f = FileState.absent ∨ f = FileState.unreadable) :
    CinemaHall.init rows cols radius gx gy f =
      Except.ok (buildHall rows cols radius gx gy) ∧
    ∀ s ∈ (buildHall rows cols radius gx gy).seats, s.booked = false := by
  constructor
  · rcases hf with rfl | rfl <;> rfl
  · intro s hs
    simp only [buildHall, CinemaHall.build_grid, List.mem_flatMap, List.mem_map] at hs
    obtain ⟨r, _, c, _, rfl⟩ := hs
    rfl

theorem load_tolerant_amended_witness :
    CinemaHall.init 1 1 16 18 24 FileState.absent =
      Except.ok (buildHall 1 1 16 18 24) ∧
    ∀ s ∈ (buildHall 1 1 16 18 24).seats, s.booked = false :=
  load_tolerant_amended 1 1 16 18 24 FileState.absent (Or.inl rfl)

/-! ### C4 -/

/-- C4: a `toggle_at` that changed a seat synchronously replaces the
persisted file with `{"seats": [s.to_dict() for s in seats]}` for the
current (post-toggle) seat state; `reset_all` always does; a `toggle_at`
that changed nothing performs no write. -/
theorem mutations_persist (sys : Sys) (px py : ℚ) :
    ((sys.toggle_at px py).2 = true →
      (sys.toggle_at px py).1.file =
        FileState.content (Json.obj [("seats",
          Json.arr ((sys.toggle_at px py).1.hall.seats.map Seat.to_dict))])) ∧
    ((sys.toggle_at px py).2 = false → (sys.toggle_at px py).1.file = sys.file) ∧
    sys.reset_all.file =
      FileState.content (Json.obj [("seats",
        Json.arr (sys.reset_all.hall.seats.map Seat.to_dict))]) := by
  unfold Sys.toggle_at Sys.reset_all
  by_cases hch : (sys.hall.toggle_at px py).2 = true <;>
    simp [hch, CinemaHall.save_state]

theorem mutations_persist_witness :
    ((Sys.mk hallA FileState.absent).toggle_at 0 (-19)).1.file =
      FileState.content (Json.obj [("seats",
        Json.arr ((((Sys.mk hallA FileState.absent).toggle_at
          0 (-19)).1.hall.seats.map Seat.to_dict)))]) ∧
    ((Sys.mk hallA FileState.absent).toggle_at 100 100).1.file =
      FileState.absent :=
  ⟨(mutations_persist _ 0 (-19)).1 (by simp [Sys.toggle_at, hallA_toggle_hit]),
   (mutations_persist _ 100 100).2.1 (by simp [Sys.toggle_at, hallA_toggle_miss])⟩

/-! ### C5 -/

/-- C5: after `reset_all` every seat's `booked` is `false`, regardless of the
prior state; and on an already all-free hall `reset_all` is a no-op on the
hall state. -/
theorem reset_all_clears (h : CinemaHall) :
    (∀ s ∈ h.reset_all.seats, s.booked = false) ∧
    ((∀ s ∈ h.seats, s.booked = false) → h.reset_all = h) := by
  constructor
  · intro s hs
    simp only [CinemaHall.reset_all, List.mem_map] at hs
    obtain ⟨t, _, rfl⟩ := hs
    rfl
  · intro hfree
    have hmap : h.seats.map (fun s => { s with booked := false }) = h.seats := by
      have hid : ∀ s ∈ h.seats, ({ s with booked := false } : Seat) = s := by
        intro s hs
        have hb := hfree s hs
        cases s
        simp_all
      rw [List.map_congr_left hid]
      simp
    unfold CinemaHall.reset_all
    rw [hmap]

theorem reset_all_clears_witness :
    (∀ s ∈ hallA.reset_all.seats, s.booked = false) ∧
    hallA.reset_all = hallA :=
  ⟨(reset_all_clears hallA).1,
   (reset_all_clears hallA).2 (by simp [hallA_seats, seatA])⟩

/-! ### C9 -/

/-- C9 counterexample: a tuple whose `booked` value is the string `"no"` —
not a boolean or boolean-equivalent value — sets `booked` to `true`
(Python `bool("no")`), not to `false` as claimed. -/
theorem from_dict_nonbool_truthy :
    (Seat.from_dict { row := 0, col := 0, x := 0, y := 0, r := 16, booked := false }
      [("booked", Json.str "no")]).booked = true :=
  rfl

/-- C9 amended: `from_dict` sets `booked` to the Python truthiness of the
tuple's `booked` field — `false` when the field is absent, the value itself
for a boolean, and otherwise truthiness (`None`/`0`/`""`/`[]`/`{}` give
`false`, every other value gives `true`); all other seat fields are
untouched. -/
theorem from_dict_truthiness (s : Seat) (data : List (String × Json)) :
    (s.from_dict data).geom = s.geom ∧
    (jsonGet data "booked" = none → (s.from_dict data).booked = false) ∧
    (∀ b, jsonGet data "booked" = some (Json.bool b) → (s.from_dict data).booked = b) ∧
    (jsonGet data "booked" = some Json.null → (s.from_dict data).booked = false) ∧
    (∀ n, jsonGet data "booked" = some (Json.num n) →
      (s.from_dict data).booked = (n != 0)) ∧
    (∀ t, jsonGet data "booked" = some (Json.str t) →
      (s.from_dict data).booked = (t != "")) ∧
    (∀ xs, jsonGet data "booked" = some (Json.arr xs) →
      (s.from_dict data).booked = !xs.isEmpty) ∧
    (∀ fs, jsonGet data "booked" = some (Json.obj fs) →
      (s.from_dict data).booked = !fs.isEmpty) := by
  refine ⟨rfl, ?_, ?_, ?_, ?_, ?_, ?_, ?_⟩ <;>
    first
      | (intro hb; simp [Seat.from_dict, hb, pyTruthy])
      | (intro v hb; simp [Seat.from_dict, hb, pyTruthy])

theorem from_dict_truthiness_witness :
    (Seat.from_dict { row := 0, col := 0, x := 0, y := 0, r := 16, booked := true }
      []).booked = false :=
  (from_dict_truthiness _ []).2.1 rfl

/-! ### C3 -/

theorem toggle_at_of_split {h : CinemaHall} {px py : ℚ} {a : List Seat} {s : Seat}
    {b : List Seat} (hd : h.seats.reverse = a ++ s :: b)
    (ha : ∀ x ∈ a, x.contains px py = false) (hs : s.contains px py = true) :
    h.toggle_at px py =
      ({ h with seats := (a ++ { s with booked := !s.booked } :: b).reverse }, true) := by
  simp only [CinemaHall.toggle_at]
  rw [hd, toggleScan_first ha hs]

/-- C3: `toggle_at` with a point contained in no seat changes nothing and
returns `false`; with a point contained in some seat it returns `true` and
flips exactly the first containing seat in reverse construction order,
leaving every other seat unchanged. -/
theorem toggle_at_spec (h : CinemaHall) (px py : ℚ) :
    ((∀ s ∈ h.seats, s.contains px py = false) → h.toggle_at px py = (h, false)) ∧
    ((∃ s ∈ h.seats, s.contains px py = true) → (h.toggle_at px py).2 = true) ∧
    (∀ a s b, h.seats.reverse = a ++ s :: b →
      (∀ x ∈ a, x.contains px py = false) → s.contains px py = true →
      (h.toggle_at px py).1.seats =
        (a ++ { s with booked := !s.booked } :: b).reverse ∧
      (h.toggle_at px py).2 = true) := by
  refine ⟨?_, ?_, ?_⟩
  · intro hnone
    simp only [CinemaHall.toggle_at]
    rw [toggleScan_of_none fun s hs => hnone s (List.mem_reverse.mp hs)]
    rw [List.reverse_reverse]
  · rintro ⟨s, hs, hc⟩
    obtain ⟨a, x, b, hd, ha, hx⟩ := exists_first_split
      (p := fun x => x.contains px py) ⟨s, List.mem_reverse.mpr hs, hc⟩
    rw [toggle_at_of_split hd ha hx]
  · intro a s b hd ha hs
    rw [toggle_at_of_split hd ha hs]
    exact ⟨rfl, rfl⟩

theorem toggle_at_spec_witness :
    hallA.toggle_at 100 100 = (hallA, false) ∧ (hallA.toggle_at 0 (-19)).2 = true :=
  ⟨(toggle_at_spec hallA 100 100).1
      (by simp [hallA_seats, seatA_not_contains_far]),
   (toggle_at_spec hallA 0 (-19)).2.1
      ⟨seatA, by simp [hallA_seats], seatA_contains_center⟩⟩

/-! ### C7 -/

theorem flip_flip (s : Seat) :
    ({ { s with booked := !s.booked } with
        booked := !({ s with booked := !s.booked }).booked } : Seat) = s := by
  cases s
  simp

theorem toggleScan_twice {px py : ℚ} {l : List Seat}
    (hl : ∃ s ∈ l, s.contains px py = true) :
    (toggleScan px py (toggleScan px py l).1).1 = l := by
  obtain ⟨a, s, b, rfl, ha, hs⟩ :=
    exists_first_split (p := fun x => x.contains px py) hl
  rw [toggleScan_first ha hs]
  have hs2 : Seat.contains { s with booked := !s.booked } px py = true := hs
  rw [show (a ++ { s with booked := !s.booked } :: b, true).1 =
    a ++ { s with booked := !s.booked } :: b from rfl]
  rw [toggleScan_first ha hs2]
  simp [flip_flip]

/-- C7: toggling twice at a point inside some seat restores the entire hall
state. -/
theorem toggle_twice_involutive (h : CinemaHall) (px py : ℚ)
    (hp : ∃ s ∈ h.seats, s.contains px py = true) :
    ((h.toggle_at px py).1.toggle_at px py).1 = h := by
  have hrev : ∃ s ∈ h.seats.reverse, s.contains px py = true := by
    obtain ⟨s, hs, hc⟩ := hp
    exact ⟨s, List.mem_reverse.mpr hs, hc⟩
  simp only [CinemaHall.toggle_at, List.reverse_reverse]
  rw [toggleScan_twice hrev]
  simp

theorem toggle_twice_involutive_witness :
    ((hallA.toggle_at 0 (-19)).1.toggle_at 0 (-19)).1 = hallA :=
  toggle_twice_involutive hallA 0 (-19)
    ⟨seatA, by simp [hallA_seats], seatA_contains_center⟩

/-! ### C10 -/

/-- C10: no operation after construction changes a seat's identity or
geometry — `toggle_at`, `reset_all` and a successful `load_state` (and the
same operations including their `save_state` side effect) preserve every
seat's `(row, col, x, y, r)`; only `booked` can change. -/
theorem ops_preserve_geometry (h : CinemaHall) (px py : ℚ) (f : FileState) :
    (h.toggle_at px py).1.seats.map Seat.geom = h.seats.map Seat.geom ∧
    h.reset_all.seats.map Seat.geom = h.seats.map Seat.geom ∧
    (∀ h', h.load_state f = Except.ok h' →
      h'.seats.map Seat.geom = h.seats.map Seat.geom) ∧
    ((Sys.mk h f).toggle_at px py).1.hall.seats.map Seat.geom =
      h.seats.map Seat.geom ∧
    (Sys.mk h f).reset_all.hall.seats.map Seat.geom = h.seats.map Seat.geom := by
  refine ⟨toggle_at_map_geom h px py, reset_all_map_geom h,
    fun h' hl => load_state_map_geom hl, ?_, ?_⟩
  · rw [sys_toggle_at_hall]
    exact toggle_at_map_geom h px py
  · rw [sys_reset_all_hall]
    exact reset_all_map_geom h

theorem ops_preserve_geometry_witness :
    (hallA.toggle_at 0 (-19)).1.seats.map Seat.geom = hallA.seats.map Seat.geom ∧
    hallA.seats.map Seat.geom = hallA.seats.map Seat.geom :=
  ⟨(ops_preserve_geometry hallA 0 (-19) FileState.absent).1,
   (ops_preserve_geometry hallA 0 (-19) FileState.absent).2.2.1 hallA rfl⟩

/-! ### C6 -/

theorem seatIdsOk_of_geom {rows cols : Nat} {l l' : List Seat}
    (hg : l'.map Seat.geom = l.map Seat.geom) (hok : seatIdsOk rows cols l) :
    seatIdsOk rows cols l' := by
  obtain ⟨hlen, hnd, hcount⟩ := hok
  have hid : l'.map Seat.ident = l.map Seat.ident := map_ident_of_map_geom hg
  refine ⟨?_, hid ▸ hnd, fun r c hr hc => hid ▸ hcount r c hr hc⟩
  have hml := congrArg List.length hg
  simp only [List.length_map] at hml
  rw [hml, hlen]

/-- C6: for `rows, cols ≥ 1` the constructed grid has exactly `rows × cols`
seats with pairwise-distinct `(row, col)`, every in-range pair occurring
exactly once; and the invariant is preserved by `toggle_at`, `reset_all`
and every successful `load_state`. -/
theorem grid_unique_invariant (rows cols : Nat) (radius gx gy : ℚ)
    (hr : 1 ≤ rows) (hc : 1 ≤ cols) :
    seatIdsOk rows cols (buildHall rows cols radius gx gy).seats ∧
    (∀ h : CinemaHall, ∀ px py : ℚ, seatIdsOk rows cols h.seats →
      seatIdsOk rows cols (h.toggle_at px py).1.seats) ∧
    (∀ h : CinemaHall, seatIdsOk rows cols h.seats →
      seatIdsOk rows cols h.reset_all.seats) ∧
    (∀ h : CinemaHall, ∀ f : FileState, ∀ h' : CinemaHall,
      seatIdsOk rows cols h.seats → h.load_state f = Except.ok h' →
      seatIdsOk rows cols h'.seats) := by
  refine ⟨⟨buildHall_length rows cols radius gx gy,
      buildHall_ident_nodup rows cols radius gx gy, fun r c hr' hc' => ?_⟩,
    fun h px py hok => seatIdsOk_of_geom (toggle_at_map_geom h px py) hok,
    fun h hok => seatIdsOk_of_geom (reset_all_map_geom h) hok,
    fun h f h' hok hl => seatIdsOk_of_geom (load_state_map_geom hl) hok⟩
  exact List.count_eq_one_of_mem (buildHall_ident_nodup rows cols radius gx gy)
    (buildHall_mem_ident rows cols radius gx gy hr' hc')

theorem grid_unique_invariant_witness :
    seatIdsOk 1 1 (buildHall 1 1 16 18 24).seats ∧
    seatIdsOk 1 1 ((buildHall 1 1 16 18 24).toggle_at 0 (-19)).1.seats :=
  ⟨(grid_unique_invariant 1 1 16 18 24 (by decide) (by decide)).1,
   (grid_unique_invariant 1 1 16 18 24 (by decide) (by decide)).2.1
     (buildHall 1 1 16 18 24) 0 (-19)
     (grid_unique_invariant 1 1 16 18 24 (by decide) (by decide)).1⟩

/-! ### C2 -/

theorem from_dict_seatEntry (s t : Seat) :
    t.from_dict (seatEntry s).2 = setBooked t s.booked :=
  rfl

theorem seatEntry_snd_isEmpty (s : Seat) : (seatEntry s).2.isEmpty = false :=
  rfl

theorem applyEntry_roundtrip {G : List Seat} {bs : List Bool}
    (hnd : (G.map Seat.ident).Nodup) (hlen : G.length = bs.length) :
    G.map (applyEntry ((List.zipWith setBooked G bs).map seatEntry)) =
      List.zipWith setBooked G bs := by
  have hHlen : (List.zipWith setBooked G bs).length = G.length := by
    rw [List.length_zipWith, hlen, Nat.min_self]
  have hident : (List.zipWith setBooked G bs).map Seat.ident = G.map Seat.ident :=
    map_ident_zipWith_setBooked hlen
  have hndH : ((List.zipWith setBooked G bs).map Seat.ident).Nodup := hident ▸ hnd
  apply List.ext_getElem
  · rw [List.length_map, hHlen]
  · intro i h1 h2
    have hGi : i < G.length := by simpa using h1
    have hbi : i < bs.length := by omega
    have hHi : (List.zipWith setBooked G bs)[i] = setBooked G[i] bs[i] :=
      List.getElem_zipWith
    rw [List.getElem_map]
    have hmem : (List.zipWith setBooked G bs)[i] ∈ List.zipWith setBooked G bs :=
      List.getElem_mem h2
    have hpa : (pyEqInt (seatEntry ((List.zipWith setBooked G bs)[i])).1.1 G[i].row &&
        pyEqInt (seatEntry ((List.zipWith setBooked G bs)[i])).1.2 G[i].col) = true := by
      rw [hHi]
      simp [seatEntry, setBooked, pyEqInt]
    have huniq : ∀ x ∈ List.zipWith setBooked G bs,
        (pyEqInt (seatEntry x).1.1 G[i].row && pyEqInt (seatEntry x).1.2 G[i].col) = true →
        x = (List.zipWith setBooked G bs)[i] := by
      intro x hx hpx
      simp only [seatEntry, pyEqInt, Bool.and_eq_true, beq_iff_eq] at hpx
      refine List.inj_on_of_nodup_map hndH hx hmem ?_
      rw [hHi]
      simp [Seat.ident, setBooked, hpx.1, hpx.2]
    have hkey : dictGet ((List.zipWith setBooked G bs).map seatEntry) G[i].row G[i].col =
        some (seatEntry ((List.zipWith setBooked G bs)[i])).2 := by
      unfold dictGet
      rw [lastWith_map]
      exact lastWith_unique hmem hpa huniq
    unfold applyEntry
    rw [hkey]
    simp only [seatEntry_snd_isEmpty, Bool.false_eq_true, if_false]
    rw [from_dict_seatEntry, hHi]
    rfl

/-- C2: `save_state` followed by a fresh construction with the identical
configuration (which loads the written snapshot) reproduces the exact
`booked` value of every seat — the loaded hall equals the saved one. -/
theorem save_load_roundtrip (rows cols : Nat) (radius gx gy : ℚ) (bs : List Bool)
    (hlen : bs.length = rows * cols) :
    CinemaHall.init rows cols radius gx gy
      (FileState.content (CinemaHall.save_state
        { buildHall rows cols radius gx gy with
          seats := List.zipWith setBooked (buildHall rows cols radius gx gy).seats bs })) =
      Except.ok
        { buildHall rows cols radius gx gy with
          seats := List.zipWith setBooked (buildHall rows cols radius gx gy).seats bs } := by
  have hnd : ((buildHall rows cols radius gx gy).seats.map Seat.ident).Nodup :=
    buildHall_ident_nodup rows cols radius gx gy
  have hlen' : (buildHall rows cols radius gx gy).seats.length = bs.length := by
    rw [buildHall_length, hlen]
  unfold CinemaHall.init
  rw [show CinemaHall.save_state
      { buildHall rows cols radius gx gy with
        seats := List.zipWith setBooked (buildHall rows cols radius gx gy).seats bs } =
    Json.obj [("seats", Json.arr
      ((List.zipWith setBooked (buildHall rows cols radius gx gy).seats bs).map
        Seat.to_dict))] from rfl]
  rw [load_state_content_obj]
  simp only [show (jsonGet [("seats", Json.arr
      ((List.zipWith setBooked (buildHall rows cols radius gx gy).seats bs).map
        Seat.to_dict))] "seats").getD (Json.arr []) =
    Json.arr ((List.zipWith setBooked (buildHall rows cols radius gx gy).seats bs).map
      Seat.to_dict) from rfl]
  simp only [show pyIter (Json.arr
      ((List.zipWith setBooked (buildHall rows cols radius gx gy).seats bs).map
        Seat.to_dict)) =
    Except.ok ((List.zipWith setBooked (buildHall rows cols radius gx gy).seats bs).map
      Seat.to_dict) from rfl]
  simp only [buildState_to_dict]
  simp only [Except.ok.injEq, CinemaHall.mk.injEq, and_true, true_and]
  exact applyEntry_roundtrip hnd hlen'

theorem save_load_roundtrip_witness :
    CinemaHall.init 1 1 16 18 24
      (FileState.content (CinemaHall.save_state
        { buildHall 1 1 16 18 24 with
          seats := List.zipWith setBooked (buildHall 1 1 16 18 24).seats [true] })) =
      Except.ok
        { buildHall 1 1 16 18 24 with
          seats := List.zipWith setBooked (buildHall 1 1 16 18 24).seats [true] } :=
  save_load_roundtrip 1 1 16 18 24 [true] (by decide)

/-! ### C8 -/

/-- C8 counterexample: two snapshots whose `seats` lists are permutations of
one another — each containing two entries for the same `(row, col)` — load
to different `booked` values: the comprehension keeps the last entry per
key, so order is semantically meaningful in the presence of duplicates. -/
theorem load_order_dependent :
    ([((0 : Int), (0 : Int), true), ((0 : Int), (0 : Int), false)].Perm
      [((0 : Int), (0 : Int), false), ((0 : Int), (0 : Int), true)]) ∧
    (hallA.load_state (FileState.content
        (mkSnapshot [((0 : Int), (0 : Int), true), ((0 : Int), (0 : Int), false)]))).map
      (fun h => h.seats.map Seat.booked) = Except.ok [false] ∧
    (hallA.load_state (FileState.content
        (mkSnapshot [((0 : Int), (0 : Int), false), ((0 : Int), (0 : Int), true)]))).map
      (fun h => h.seats.map Seat.booked) = Except.ok [true] :=
  ⟨List.Perm.swap _ _ _, rfl, rfl⟩

theorem entryKey_mkEntry (t : Int × Int × Bool) :
    entryKey (mkEntry t) = Except.ok ((Json.num t.1, Json.num t.2.1),
      [("row", Json.num t.1), ("col", Json.num t.2.1), ("booked", Json.bool t.2.2)]) :=
  rfl

theorem buildState_mkEntry (ts : List (Int × Int × Bool)) :
    buildState (ts.map mkEntry) = Except.ok (ts.map fun t =>
      ((Json.num t.1, Json.num t.2.1),
       [("row", Json.num t.1), ("col", Json.num t.2.1), ("booked", Json.bool t.2.2)])) := by
  induction ts with
  | nil => rfl
  | cons t ts ih => simp [buildState, entryKey_mkEntry, ih]

/-- C8 amended: for snapshots in the documented schema whose entries carry
pairwise-distinct `(row, col)` keys, the order of the `seats` list is not
semantically meaningful: loading any permutation gives the same result. -/
theorem load_perm_invariant (h : CinemaHall) (ts ts' : List (Int × Int × Bool))
    (hperm : ts.Perm ts') (hnd : (ts.map fun t => (t.1, t.2.1)).Nodup) :
    h.load_state (FileState.content (mkSnapshot ts)) =
      h.load_state (FileState.content (mkSnapshot ts')) := by
  rw [show mkSnapshot ts = Json.obj [("seats", Json.arr (ts.map mkEntry))] from rfl,
    show mkSnapshot ts' = Json.obj [("seats", Json.arr (ts'.map mkEntry))] from rfl]
  rw [load_state_content_obj, load_state_content_obj]
  simp only [show ∀ es : List Json,
    (jsonGet [("seats", Json.arr es)] "seats").getD (Json.arr []) = Json.arr es
    from fun es => rfl]
  simp only [show ∀ es : List Json, pyIter (Json.arr es) = Except.ok es
    from fun es => rfl]
  simp only [buildState_mkEntry]
  simp only [Except.ok.injEq, CinemaHall.mk.injEq, true_and]
  refine List.map_congr_left fun seat hs => ?_
  unfold applyEntry dictGet
  rw [lastWith_map, lastWith_map]
  have huniq : ∀ x ∈ ts, ∀ y ∈ ts,
      (pyEqInt (Json.num x.1) seat.row && pyEqInt (Json.num x.2.1) seat.col) = true →
      (pyEqInt (Json.num y.1) seat.row && pyEqInt (Json.num y.2.1) seat.col) = true →
      x = y := by
    intro x hx y hy hpx hpy
    simp only [pyEqInt, Bool.and_eq_true, beq_iff_eq] at hpx hpy
    refine List.inj_on_of_nodup_map hnd hx hy ?_
    rw [hpx.1, hpx.2, hpy.1, hpy.2]
  rw [lastWith_perm hperm huniq]

theorem load_perm_invariant_witness :
    hallA.load_state (FileState.content
        (mkSnapshot [((0 : Int), (0 : Int), true), ((0 : Int), (1 : Int), false)])) =
      hallA.load_state (FileState.content
        (mkSnapshot [((0 : Int), (1 : Int), false), ((0 : Int), (0 : Int), true)])) :=
  load_perm_invariant hallA _ _ (List.Perm.swap _ _ _) (by decide)
